import Mathlib

/-!
Verification of `mcp_agent_tools` (file `src/mcp_agent_tools/smol_mcp_tool_factory.py`)
against its natural-language specification.

The embedding translates the factory's pure logic directly from the source:

* `MCPTool` models the descriptor objects (`models.MCPTool`): a name, a description,
  an insertion-ordered parameter mapping (Python `dict` iteration order is insertion
  order, embedded as an association list with distinct keys), and the callability of
  its `function` attribute.
* `mcp_to_smolagent_tool` embeds the conversion routine (lines 171-308): validation,
  the per-parameter schema-building loop with the `kwargs` -> `query` rename, the
  type-mapping `elif` chain, the zero-parameter default, and the synthesized
  `forward` method.  The host framework's `Tool` base class (`smolagents`) is an
  external dependency treated as a black box per the spec, so instantiating the
  dynamic subclass is modelled as inert.
* The generated `forward` method is embedded by its formal parameter list
  (`forwardParams`) and its body's keyword-argument forwarding map (`forwardBody`,
  a list of pairs: keyword passed to the wrapped function x formal parameter read).
* `get_tools` and `get_smolagent_tools` embed the discovery / aggregate-conversion
  operations (lines 150-169 and 310-356), including the `try/except` control flow.
* `factoryInit`, `from_service` and `close` embed the lifecycle (lines 24-111);
  `close`'s effect is counted as the number of calls it makes to `service.stop()`.
-/

namespace McpAgentTools

/-- A Python value found in a parameter's `type` field: either one of the native
type objects `str`, `int`, `float`, `bool`, `list`, `dict`, a string literal, or
any other value (which compares unequal to all of the former). -/
inductive TypeDesig where
  | strLit (s : String)
  | pyStr
  | pyInt
  | pyFloat
  | pyBool
  | pyList
  | pyDict
  | otherVal
deriving DecidableEq, Repr

/-- Per-parameter metadata from a descriptor's `inputs` dict: the optional `type`
entry and the optional `description` entry. -/
structure ParamInfo where
  ptype : Option TypeDesig
  pdesc : Option String
deriving DecidableEq, Repr

/-- The descriptor (`models.MCPTool`): `inputs` is its parameter dict in insertion
order; `functionCallable` records whether its `function` attribute is callable. -/
structure MCPTool where
  name : String
  description : String
  inputs : List (String × ParamInfo)
  functionCallable : Bool
deriving DecidableEq, Repr

/-- A Python exception value as raised by this package: an external (non-package)
exception, a `ServiceError`, or a `ConversionError`, each carrying its message and
its `__cause__` (set by `raise ... from e`). -/
inductive PyError where
  | external (msg : String)
  | serviceError (msg : String) (cause : Option PyError)
  | conversionError (msg : String) (cause : Option PyError)

/-- `str(e)`: the message of an exception. -/
def PyError.msg : PyError → String
  | .external m => m
  | .serviceError m _ => m
  | .conversionError m _ => m

/-- Modelled from the spec: `exceptions.py` is not under `src/`, so the class
hierarchy is taken from the spec's error taxonomy, which lists `ServiceError` and
`ConversionError` as distinct kinds; hence an `except ServiceError` clause matches
exactly the `ServiceError` values. -/
def PyError.matchesServiceError : PyError → Bool
  | .serviceError _ _ => true
  | _ => false

/-- Modelled from the spec: companion instance check for `ConversionError`
(distinct kind from `ServiceError` in the spec's taxonomy). -/
def PyError.matchesConversionError : PyError → Bool
  | .conversionError _ _ => true
  | _ => false

/-- One entry of the generated JSON-ish schema: `{"type": ..., "description": ...}`. -/
structure SchemaEntry where
  type : String
  description : String
deriving DecidableEq, Repr

/-- The rename applied inside the schema loop: a parameter literally named
`kwargs` becomes `query` (lines 212-215); every other name is kept. -/
def renameParam (n : String) : String :=
  if n = "kwargs" then "query" else n

/-- The type-mapping `elif` chain (lines 218-234): best-effort translation of the
parameter's `type` field into the fixed 6-value schema vocabulary, defaulting to
`"string"`. -/
def mapParamType (t : Option TypeDesig) : String :=
  match t with
  | none => "string"
  | some pt =>
    if pt = TypeDesig.pyStr ∨ pt = TypeDesig.strLit "string" then "string"
    else if pt = TypeDesig.pyInt ∨ pt = TypeDesig.strLit "integer" then "integer"
    else if pt = TypeDesig.pyFloat ∨ pt = TypeDesig.strLit "number" then "number"
    else if pt = TypeDesig.pyBool ∨ pt = TypeDesig.strLit "boolean" then "boolean"
    else if pt = TypeDesig.pyList ∨ pt = TypeDesig.strLit "array" then "array"
    else if pt = TypeDesig.pyDict ∨ pt = TypeDesig.strLit "object" then "object"
    else "string"

/-- The schema entry built for one parameter (lines 236-239).  `param_name` is the
loop variable AFTER the rename, which is exactly what the source interpolates into
the default description. -/
def schemaEntryFor (param_name : String) (info : ParamInfo) : SchemaEntry :=
  { type := mapParamType info.ptype
    description := info.pdesc.getD ("Parameter: " ++ param_name) }

/-- Python dict assignment `d[k] = v`: update in place if the key is present
(keeping its position), append otherwise. -/
def insertOrUpdate (l : List (String × SchemaEntry)) (k : String) (v : SchemaEntry) :
    List (String × SchemaEntry) :=
  match l with
  | [] => [(k, v)]
  | (k', v') :: rest =>
    if k' = k then (k, v) :: rest else (k', v') :: insertOrUpdate rest k v

/-- Python dict lookup `d.get(k)` on the schema association list. -/
def lookupSchema (k : String) (l : List (String × SchemaEntry)) : Option SchemaEntry :=
  match l with
  | [] => none
  | (k', v') :: rest => if k' = k then some v' else lookupSchema k rest

/-- One iteration of the schema loop (lines 210-239), threading the
`(param_names, input_schema)` accumulator. -/
def processParam (acc : List String × List (String × SchemaEntry)) (p : String × ParamInfo) :
    List String × List (String × SchemaEntry) :=
  let param_name := renameParam p.1
  (acc.1 ++ [param_name], insertOrUpdate acc.2 param_name (schemaEntryFor param_name p.2))

/-- The whole schema loop, starting from empty `param_names` / `input_schema`. -/
def buildInputs (inputs : List (String × ParamInfo)) :
    List String × List (String × SchemaEntry) :=
  inputs.foldl processParam ([], [])

/-- The generated adapter object: declared attributes of the dynamic class plus the
shape of its synthesized `forward` method.  `forwardBody` lists the keyword
arguments passed to the wrapped function, each paired with the formal parameter it
reads. -/
structure Adapter where
  name : String
  description : String
  inputs : List (String × SchemaEntry)
  output_type : String
  had_kwargs_param : Bool
  forwardParams : List String
  forwardBody : List (String × String)
deriving DecidableEq, Repr

/-- Construction of the dynamic tool instance on the success path of
`mcp_to_smolagent_tool` (lines 196-303). -/
def mkAdapter (t : MCPTool) : Adapter :=
  let built := buildInputs t.inputs
  let param_names := if built.1.isEmpty then ["query"] else built.1
  let input_schema :=
    if built.1.isEmpty then [("query", SchemaEntry.mk "string" "Input query for the tool")]
    else built.2
  let has_kwargs_param := t.inputs.any (fun p => p.1 == "kwargs")
  { name := t.name
    description := t.description
    inputs := input_schema
    output_type := "string"
    had_kwargs_param := has_kwargs_param
    forwardParams := if has_kwargs_param then ["query"] else param_names
    forwardBody :=
      if has_kwargs_param then [("kwargs", "query")]
      else param_names.map (fun n => (n, n)) }

/-- `mcp_to_smolagent_tool` (lines 171-308): validation of the descriptor followed
by adapter synthesis.  Failures are `ConversionError`s. -/
def mcp_to_smolagent_tool (tool : Option MCPTool) : Except PyError Adapter :=
  match tool with
  | none => .error (.conversionError "Cannot convert None to SmolAgents Tool" none)
  | some t =>
    if t.name = "" then .error (.conversionError "MCPTool must have a name" none)
    else if t.functionCallable = false then
      .error (.conversionError ("MCPTool '" ++ t.name ++ "' must have a callable function") none)
    else .ok (mkAdapter t)

/-- Calling the generated `forward` with an assignment `σ` of values to its formal
parameters: the list of keyword arguments handed to the wrapped MCP function. -/
def dispatchCall (α : Type) (a : Adapter) (σ : String → α) : List (String × α) :=
  a.forwardBody.map (fun pr => (pr.1, σ pr.2))

/-- Log lines emitted by the factory, by severity. -/
inductive LogLevel where
  | warning
  | info
  | error
deriving DecidableEq, Repr

/-- `get_tools` (lines 150-169): `started` is the factory's readiness flag, `svc`
the outcome of the underlying `service.get_tools()` call (error = message of the
raised exception).  Returns the result together with the emitted log lines. -/
def get_tools (started : Bool) (svc : Except String (List (Option MCPTool))) :
    Except PyError (List (Option MCPTool)) × List (LogLevel × String) :=
  if started = false then
    (.ok [], [(LogLevel.warning, "MCP Tool Service is not started or not connected to server")])
  else
    match svc with
    | .ok ts => (.ok ts, [(LogLevel.info, "Retrieved " ++ toString ts.length ++ " MCPTool objects")])
    | .error c =>
      (.error (.serviceError ("Error retrieving tools: " ++ c) (some (.external c))),
       [(LogLevel.error, "Error retrieving tools: " ++ c)])

/-- `tool.name if hasattr(tool, 'name') else 'unknown'` (line 338). -/
def toolLabel (tool : Option MCPTool) : String :=
  match tool with
  | some t => t.name
  | none => "unknown"

/-- One iteration of the conversion loop of `get_smolagent_tools` (lines 332-340):
append the converted adapter on success, collect the error message on a
`ConversionError`. -/
def convStep (acc : List Adapter × List String) (tool : Option MCPTool) :
    List Adapter × List String :=
  match mcp_to_smolagent_tool tool with
  | .ok a => (acc.1 ++ [a], acc.2)
  | .error e =>
    (acc.1,
     acc.2 ++ ["Error converting " ++ toolLabel tool ++ " to SmolAgents Tool: " ++ e.msg])

/-- The whole conversion loop: accumulates the successfully converted adapters and
the collected per-tool error messages. -/
def convertFold (tools : List (Option MCPTool)) : List Adapter × List String :=
  tools.foldl convStep ([], [])

/-- Whether conversion of one list element fails. -/
def convertFails (tool : Option MCPTool) : Bool :=
  match mcp_to_smolagent_tool tool with
  | .ok _ => false
  | .error _ => true

/-- The handler chain of `get_smolagent_tools` (lines 350-356) applied to an
exception escaping the `try` body: `except ServiceError` re-raises it unchanged,
any other exception is wrapped into a new `ServiceError` with it as cause. -/
def wrapUnexpected (e : PyError) : PyError :=
  if e.matchesServiceError then e
  else .serviceError ("Error getting SmolAgents tools: " ++ e.msg) (some e)

/-- `get_smolagent_tools` (lines 310-356): discovery, per-tool conversion with
collected failures, and the all-failed aggregate raise — which, being a
`ConversionError` raised inside the `try` body, goes through the handler chain. -/
def get_smolagent_tools (started : Bool) (svc : Except String (List (Option MCPTool))) :
    Except PyError (List Adapter) :=
  match (get_tools started svc).1 with
  | .error e => .error (wrapUnexpected e)
  | .ok mcp_tools =>
    let r := convertFold mcp_tools
    if r.1.isEmpty && !r.2.isEmpty then
      .error (wrapUnexpected
        (.conversionError
          ("Failed to convert any tools. Errors: " ++ String.intercalate ", " r.2) none))
    else .ok r.1

/-- The `MCPToolService` as seen through its contract: its `connected` flag. -/
structure MCPToolService where
  connected : Bool
deriving DecidableEq, Repr

/-- The factory state relevant to lifecycle: whether the `service` attribute was
set (`hasattr(self, 'service')`), the `own_service` flag, and `started`. -/
structure FactoryState where
  hasServiceAttr : Bool
  own_service : Bool
  started : Bool
deriving DecidableEq, Repr

/-- `__init__` (lines 24-82): wrap the provided service, or create a new one whose
`start()` returns `start_result` — in which case `own_service` is overwritten to
`True` at line 82 regardless of the argument. -/
def factoryInit (service : Option MCPToolService) (own_service : Bool) (start_result : Bool) :
    FactoryState :=
  match service with
  | some s => { hasServiceAttr := true, own_service := own_service, started := s.connected }
  | none => { hasServiceAttr := true, own_service := true, started := start_result }

/-- Default of the `own_service` keyword of `__init__` (line 33). -/
def init_own_service_default : Bool := true

/-- Default of the `own_service` keyword of `from_service` (line 100). -/
def from_service_own_service_default : Bool := false

/-- `from_service` (lines 99-111): delegates to `__init__` with the given service;
the `start_result` slot is irrelevant in this branch. -/
def from_service (service : MCPToolService) (own_service : Bool) : FactoryState :=
  factoryInit (some service) own_service false

/-- `close` (lines 88-97): calls `service.stop()` iff the `service` attribute
exists and `own_service` holds; mutates nothing.  Returns the state afterwards and
the number of `stop` calls made. -/
def close (st : FactoryState) : FactoryState × Nat :=
  if st.hasServiceAttr && st.own_service then (st, 1) else (st, 0)

/-- Total number of `service.stop()` calls made by two successive `close()` calls. -/
def closeTwiceStops (st : FactoryState) : Nat :=
  let r1 := close st
  let r2 := close r1.1
  r1.2 + r2.2

/-- The key list of a schema association list (the dict's keys, in order). -/
def schemaKeys (l : List (String × SchemaEntry)) : List String := l.map Prod.fst

/-- The adapter-facing (post-rename) parameter names of a descriptor, in
declaration order. -/
def renamedKeys (inputs : List (String × ParamInfo)) : List String :=
  inputs.map (fun p => renameParam p.1)

/-- Example descriptor: a `kwargs` parameter next to an ordinary one. -/
def kwargsPairTool : MCPTool :=
  ⟨"t", "", [("kwargs", ⟨none, none⟩), ("x", ⟨none, none⟩)], true⟩

/-- Example descriptor: `kwargs` as the sole parameter, with no description. -/
def kwargsOnlyTool : MCPTool :=
  ⟨"run", "", [("kwargs", ⟨some TypeDesig.pyDict, none⟩)], true⟩

/-- Example descriptor that converts successfully. -/
def goodTool : MCPTool :=
  ⟨"search", "d", [("query", ⟨some (TypeDesig.strLit "string"), some "the query"⟩)], true⟩

/-- Example descriptor that fails conversion (empty name). -/
def badTool : MCPTool := ⟨"", "", [], true⟩

/-- Example descriptor declaring both a `kwargs` and a `query` parameter. -/
def collideTool : MCPTool :=
  ⟨"both", "",
   [("kwargs", ⟨some TypeDesig.pyDict, none⟩),
    ("query", ⟨some (TypeDesig.strLit "string"), some "q"⟩),
    ("z", ⟨none, none⟩)], true⟩

/-! ## Helper lemmas -/

theorem mapParamType_mem (t : Option TypeDesig) :
    mapParamType t ∈ ["string", "integer", "number", "boolean", "array", "object"] := by
  cases t with
  | none => simp [mapParamType]
  | some pt => simp only [mapParamType]; split_ifs <;> simp

theorem mapParamType_strLit_self :
    ∀ s ∈ ["string", "integer", "number", "boolean", "array", "object"],
      mapParamType (some (TypeDesig.strLit s)) = s := by
  intro s hs
  fin_cases hs <;> rfl

@[simp] theorem renamedKeys_nil : renamedKeys [] = [] := rfl

@[simp] theorem renamedKeys_cons (p : String × ParamInfo) (rest : List (String × ParamInfo)) :
    renamedKeys (p :: rest) = renameParam p.1 :: renamedKeys rest := rfl

theorem renamedKeys_eq_map (l : List (String × ParamInfo)) :
    renamedKeys l = (l.map Prod.fst).map renameParam := by
  rw [List.map_map]
  rfl

theorem renamedKeys_eq_of_no_kwargs (l : List (String × ParamInfo))
    (h : ∀ p ∈ l, ¬ p.1 = "kwargs") : renamedKeys l = l.map Prod.fst := by
  induction l with
  | nil => rfl
  | cons p rest ih =>
    rw [renamedKeys_cons, List.map_cons,
      ih (fun q hq => h q (List.mem_cons_of_mem _ hq))]
    unfold renameParam
    rw [if_neg (h p (List.mem_cons_self _ _))]

@[simp] theorem schemaKeys_nil : schemaKeys [] = [] := rfl

@[simp] theorem schemaKeys_cons (p : String × SchemaEntry) (l : List (String × SchemaEntry)) :
    schemaKeys (p :: l) = p.1 :: schemaKeys l := rfl

theorem insertOrUpdate_keys (l : List (String × SchemaEntry)) (k : String) (v : SchemaEntry) :
    schemaKeys (insertOrUpdate l k v) =
      if k ∈ schemaKeys l then schemaKeys l else schemaKeys l ++ [k] := by
  induction l with
  | nil => simp [insertOrUpdate]
  | cons p rest ih =>
    rcases p with ⟨k', v'⟩
    by_cases h : k' = k
    · subst h
      simp [insertOrUpdate]
    · have hstep : insertOrUpdate ((k', v') :: rest) k v
          = (k', v') :: insertOrUpdate rest k v := by
        simp [insertOrUpdate, h]
      rw [hstep, schemaKeys_cons, schemaKeys_cons, ih]
      by_cases hm : k ∈ schemaKeys rest
      · rw [if_pos hm, if_pos (by simp [hm])]
      · rw [if_neg hm, if_neg (by simp [List.mem_cons, hm, Ne.symm h])]
        rfl

theorem insertOrUpdate_keys_nodup (l : List (String × SchemaEntry)) (k : String)
    (v : SchemaEntry) (h : (schemaKeys l).Nodup) :
    (schemaKeys (insertOrUpdate l k v)).Nodup := by
  rw [insertOrUpdate_keys]
  by_cases hm : k ∈ schemaKeys l
  · rwa [if_pos hm]
  · rw [if_neg hm]
    exact h.append (List.nodup_singleton k) (List.disjoint_singleton.mpr hm)

theorem insertOrUpdate_keys_toFinset (l : List (String × SchemaEntry)) (k : String)
    (v : SchemaEntry) :
    (schemaKeys (insertOrUpdate l k v)).toFinset = insert k (schemaKeys l).toFinset := by
  rw [insertOrUpdate_keys]
  by_cases hm : k ∈ schemaKeys l
  · rw [if_pos hm]
    exact (Finset.insert_eq_self.mpr (List.mem_toFinset.mpr hm)).symm
  · rw [if_neg hm]
    ext x
    simp
    tauto

theorem lookupSchema_insertOrUpdate_self (l : List (String × SchemaEntry)) (k : String)
    (v : SchemaEntry) :
    lookupSchema k (insertOrUpdate l k v) = some v := by
  induction l with
  | nil => simp [insertOrUpdate, lookupSchema]
  | cons p rest ih =>
    rcases p with ⟨k', v'⟩
    by_cases h : k' = k
    · subst h
      simp [insertOrUpdate, lookupSchema]
    · simp [insertOrUpdate, lookupSchema, h, ih]

theorem lookupSchema_insertOrUpdate_ne (l : List (String × SchemaEntry)) (k k' : String)
    (v : SchemaEntry) (h : ¬ k' = k) :
    lookupSchema k (insertOrUpdate l k' v) = lookupSchema k l := by
  induction l with
  | nil => simp [insertOrUpdate, lookupSchema, h]
  | cons p rest ih =>
    rcases p with ⟨k'', v''⟩
    by_cases h2 : k'' = k'
    · subst h2
      simp [insertOrUpdate, lookupSchema, h]
    · by_cases h3 : k'' = k
      · subst h3
        simp [insertOrUpdate, lookupSchema, h2]
      · simp [insertOrUpdate, lookupSchema, h2, h3, ih]

theorem processParam_snd (acc : List String × List (String × SchemaEntry))
    (p : String × ParamInfo) :
    (processParam acc p).2 =
      insertOrUpdate acc.2 (renameParam p.1) (schemaEntryFor (renameParam p.1) p.2) := rfl

theorem foldl_processParam_fst (inputs : List (String × ParamInfo)) :
    ∀ acc, (inputs.foldl processParam acc).1 = acc.1 ++ renamedKeys inputs := by
  induction inputs with
  | nil => intro acc; simp
  | cons p rest ih =>
    intro acc
    rw [List.foldl_cons, ih]
    simp [processParam]

theorem foldl_processParam_keys_nodup (inputs : List (String × ParamInfo)) :
    ∀ acc, (schemaKeys acc.2).Nodup →
      (schemaKeys (inputs.foldl processParam acc).2).Nodup := by
  induction inputs with
  | nil => intro acc h; exact h
  | cons p rest ih =>
    intro acc h
    rw [List.foldl_cons]
    exact ih _ (insertOrUpdate_keys_nodup _ _ _ h)

theorem foldl_processParam_keys_toFinset (inputs : List (String × ParamInfo)) :
    ∀ acc, (schemaKeys (inputs.foldl processParam acc).2).toFinset =
      (schemaKeys acc.2).toFinset ∪ (renamedKeys inputs).toFinset := by
  induction inputs with
  | nil => intro acc; simp
  | cons p rest ih =>
    intro acc
    rw [List.foldl_cons, ih, processParam_snd, insertOrUpdate_keys_toFinset]
    ext x
    simp

theorem foldl_processParam_keys_of_nodup (inputs : List (String × ParamInfo)) :
    ∀ acc, (renamedKeys inputs).Nodup →
      (∀ n ∈ renamedKeys inputs, n ∉ schemaKeys acc.2) →
      schemaKeys (inputs.foldl processParam acc).2 = schemaKeys acc.2 ++ renamedKeys inputs := by
  induction inputs with
  | nil => intro acc _ _; simp
  | cons p rest ih =>
    intro acc hnd hdisj
    rw [renamedKeys_cons] at hnd hdisj ⊢
    obtain ⟨hnotin, hnd'⟩ := List.nodup_cons.mp hnd
    have hn : renameParam p.1 ∉ schemaKeys acc.2 := hdisj _ (List.mem_cons_self _ _)
    have hkeys : schemaKeys (processParam acc p).2 = schemaKeys acc.2 ++ [renameParam p.1] := by
      rw [processParam_snd, insertOrUpdate_keys, if_neg hn]
    have hdisj2 : ∀ m ∈ renamedKeys rest, m ∉ schemaKeys (processParam acc p).2 := by
      intro m hm
      rw [hkeys]
      simp only [List.mem_append, List.mem_singleton]
      rintro (hc | hc)
      · exact hdisj m (List.mem_cons_of_mem _ hm) hc
      · exact hnotin (hc ▸ hm)
    rw [List.foldl_cons, ih (processParam acc p) hnd' hdisj2, hkeys, List.append_assoc,
      List.singleton_append]

theorem foldl_processParam_lookup (k : String) (inputs : List (String × ParamInfo)) :
    ∀ acc, lookupSchema k (inputs.foldl processParam acc).2 =
      (match (inputs.filter (fun p => renameParam p.1 == k)).getLast? with
       | some p => some (schemaEntryFor (renameParam p.1) p.2)
       | none => lookupSchema k acc.2) := by
  induction inputs with
  | nil => intro acc; simp
  | cons p rest ih =>
    intro acc
    rw [List.foldl_cons, ih (processParam acc p)]
    by_cases hp : renameParam p.1 = k
    · subst hp
      rw [List.filter_cons_of_pos (by simp)]
      cases hfr : rest.filter (fun q => renameParam q.1 == renameParam p.1) with
      | nil =>
        simp only [List.getLast?_nil, List.getLast?_singleton]
        rw [processParam_snd, lookupSchema_insertOrUpdate_self]
      | cons q qs =>
        rw [List.getLast?_cons_cons]
        cases hql : (q :: qs).getLast? with
        | none => simp at hql
        | some r => rfl
    · rw [List.filter_cons_of_neg (by simp [hp])]
      cases hfr : rest.filter (fun q => renameParam q.1 == k) with
      | nil =>
        simp only [List.getLast?_nil]
        rw [processParam_snd, lookupSchema_insertOrUpdate_ne _ _ _ _ hp]
      | cons q qs =>
        cases hql : (q :: qs).getLast? with
        | none => simp at hql
        | some r => rfl

theorem dedup_length_lt_of_not_nodup {l : List String} (h : ¬ l.Nodup) :
    l.dedup.length < l.length := by
  rcases Nat.lt_or_ge l.dedup.length l.length with h' | h'
  · exact h'
  · have heq : l.dedup = l :=
      l.dedup_sublist.eq_of_length (Nat.le_antisymm l.dedup_sublist.length_le h')
    exact absurd (heq ▸ l.nodup_dedup) h

theorem convertFold_lengths (tools : List (Option MCPTool)) :
    ∀ acc : List Adapter × List String,
      (tools.foldl convStep acc).1.length
        = acc.1.length + tools.countP (fun t => !convertFails t) ∧
      (tools.foldl convStep acc).2.length
        = acc.2.length + tools.countP convertFails := by
  induction tools with
  | nil => intro acc; simp
  | cons t rest ih =>
    intro acc
    obtain ⟨ih1, ih2⟩ := ih (convStep acc t)
    cases hconv : mcp_to_smolagent_tool t with
    | ok a =>
      have hf : convertFails t = false := by simp [convertFails, hconv]
      have hstep : convStep acc t = (acc.1 ++ [a], acc.2) := by simp [convStep, hconv]
      rw [hstep] at ih1 ih2
      constructor
      · rw [List.foldl_cons, hstep, ih1, List.countP_cons]
        simp [hf]
        omega
      · rw [List.foldl_cons, hstep, ih2, List.countP_cons]
        simp [hf]
    | error e =>
      have hf : convertFails t = true := by simp [convertFails, hconv]
      have hstep : convStep acc t =
          (acc.1,
           acc.2 ++ ["Error converting " ++ toolLabel t ++ " to SmolAgents Tool: " ++ e.msg]) := by
        simp [convStep, hconv]
      rw [hstep] at ih1 ih2
      constructor
      · rw [List.foldl_cons, hstep, ih1, List.countP_cons]
        simp [hf]
      · rw [List.foldl_cons, hstep, ih2, List.countP_cons]
        simp [hf]
        omega

theorem countP_not_convertFails (tools : List (Option MCPTool)) :
    tools.countP (fun t => !convertFails t) = tools.length - tools.countP convertFails := by
  induction tools with
  | nil => rfl
  | cons t rest ih =>
    have hle : rest.countP convertFails ≤ rest.length := rest.countP_le_length _
    simp only [List.countP_cons, List.length_cons]
    cases h : convertFails t <;> simp [ih, h]
    all_goals omega

theorem get_smolagent_tools_ok (tools : List (Option MCPTool)) :
    get_smolagent_tools true (.ok tools) =
      (if (convertFold tools).1.isEmpty && !(convertFold tools).2.isEmpty then
        .error (wrapUnexpected (.conversionError
          ("Failed to convert any tools. Errors: "
            ++ String.intercalate ", " (convertFold tools).2) none))
      else .ok (convertFold tools).1) := rfl

/-! ## Claim theorems -/

/-- C7: the per-parameter type mapping sends each of the six recognized enum
values (string, integer, number, boolean, array, object) to itself, sends absent
and unrecognized types to `"string"`, and is idempotent. -/
theorem mapParamType_enum_idempotent_and_default :
    (∀ s ∈ ["string", "integer", "number", "boolean", "array", "object"],
      mapParamType (some (TypeDesig.strLit s)) = s) ∧
    mapParamType none = "string" ∧
    (∀ s, s ∉ ["string", "integer", "number", "boolean", "array", "object"] →
      mapParamType (some (TypeDesig.strLit s)) = "string") ∧
    mapParamType (some TypeDesig.otherVal) = "string" ∧
    (∀ t, mapParamType (some (TypeDesig.strLit (mapParamType t))) = mapParamType t) := by
  refine ⟨mapParamType_strLit_self, rfl, ?_, rfl, ?_⟩
  · intro s hs
    simp only [List.mem_cons, List.not_mem_nil, or_false, not_or] at hs
    obtain ⟨h1, h2, h3, h4, h5, h6⟩ := hs
    simp [mapParamType, h1, h2, h3, h4, h5, h6]
  · intro t
    exact mapParamType_strLit_self (mapParamType t) (mapParamType_mem t)

/-- C7 witness: concrete evaluations of the three hypothesis-bearing clauses. -/
theorem mapParamType_enum_witness :
    mapParamType (some (TypeDesig.strLit "integer")) = "integer" ∧
    mapParamType (some (TypeDesig.strLit "datetime")) = "string" ∧
    mapParamType (some (TypeDesig.strLit (mapParamType (some TypeDesig.pyBool)))) =
      mapParamType (some TypeDesig.pyBool) :=
  ⟨mapParamType_enum_idempotent_and_default.1 "integer" (by decide),
   mapParamType_enum_idempotent_and_default.2.2.1 "datetime" (by decide),
   mapParamType_enum_idempotent_and_default.2.2.2.2 (some TypeDesig.pyBool)⟩

/-- C8: a convertible descriptor declaring zero parameters yields an adapter whose
declared schema is exactly the synthetic
`query: {type: string, description: "Input query for the tool"}` entry, so the
adapter exposes at least one declared input. -/
theorem zero_params_default_query (t : MCPTool)
    (hname : ¬ t.name = "") (hfn : t.functionCallable = true) (hinp : t.inputs = []) :
    mcp_to_smolagent_tool (some t) =
      .ok (Adapter.mk t.name t.description
        [("query", SchemaEntry.mk "string" "Input query for the tool")]
        "string" false ["query"] [("query", "query")]) := by
  simp [mcp_to_smolagent_tool, hname, hfn, mkAdapter, hinp, buildInputs]

/-- C8 witness: the zero-parameter conversion evaluated on a concrete descriptor. -/
theorem zero_params_default_query_witness :
    mcp_to_smolagent_tool (some (MCPTool.mk "ping" "d" [] true)) =
      .ok (Adapter.mk "ping" "d"
        [("query", SchemaEntry.mk "string" "Input query for the tool")]
        "string" false ["query"] [("query", "query")]) :=
  zero_params_default_query (MCPTool.mk "ping" "d" [] true) (by decide) rfl rfl

/-- C9: with the ready flag false, `get_tools` returns an empty sequence and logs
a warning rather than raising; with the flag true and the underlying discovery
call failing, it raises a `ServiceError` wrapping the cause and returns no
partial result. -/
theorem get_tools_not_ready_and_failure :
    (∀ svc, get_tools false svc =
      (.ok [], [(LogLevel.warning, "MCP Tool Service is not started or not connected to server")])) ∧
    (∀ c, get_tools true (.error c) =
      (.error (.serviceError ("Error retrieving tools: " ++ c) (some (.external c))),
       [(LogLevel.error, "Error retrieving tools: " ++ c)])) :=
  ⟨fun _ => rfl, fun _ => rfl⟩

/-- C4 counterexample: with the service attribute present and ownership held, two
successive `close()` calls each invoke `service.stop()`, so the underlying stop is
called twice — not at most once. -/
theorem close_twice_counterexample :
    closeTwiceStops (FactoryState.mk true true true) = 2 ∧
    ¬ closeTwiceStops (FactoryState.mk true true true) ≤ 1 := by decide

/-- C4 (amended): `close()` mutates no factory state and calls `stop` exactly once
per invocation when the service attribute exists and is owned — so two closes make
two stop calls; it never calls stop when ownership is absent, and the existence
guard gives zero stop calls when construction failed before setting the service
attribute. -/
theorem close_stop_behavior (st : FactoryState) :
    ((close st).1 = st) ∧
    (st.own_service = false → closeTwiceStops st = 0) ∧
    (st.hasServiceAttr = false → closeTwiceStops st = 0) ∧
    (st.hasServiceAttr = true → st.own_service = true → closeTwiceStops st = 2) := by
  rcases st with ⟨hs, os, ss⟩
  cases hs <;> cases os <;> simp [close, closeTwiceStops]

/-- C4 witness: the amended close/stop accounting at concrete states. -/
theorem close_stop_behavior_witness :
    closeTwiceStops (FactoryState.mk true true true) = 2 ∧
    closeTwiceStops (FactoryState.mk true false true) = 0 ∧
    closeTwiceStops (FactoryState.mk false true true) = 0 :=
  ⟨(close_stop_behavior (FactoryState.mk true true true)).2.2.2 rfl rfl,
   (close_stop_behavior (FactoryState.mk true false true)).2.1 rfl,
   (close_stop_behavior (FactoryState.mk false true true)).2.2.1 rfl⟩

/-- C5 counterexample: wrapping a caller-supplied, already-connected service
through the primary constructor without specifying ownership (i.e. with the
declared default `own_service=True`) yields an owning factory, so the factory is
not non-owning by default on this construction path. -/
theorem init_default_ownership_counterexample :
    ¬ (factoryInit (some (MCPToolService.mk true)) init_own_service_default
        false).own_service = false := by decide

/-- C5 (amended): non-owning-by-default holds only for the `from_service`
constructor (default `own_service=False`); the primary constructor's default is
`own_service=True`, so wrapping a service there without specifying ownership
yields an owning factory; and construction from connection parameters takes
ownership regardless of the argument. -/
theorem ownership_defaults (s : MCPToolService) (b r : Bool) :
    (from_service s from_service_own_service_default).own_service = false ∧
    (factoryInit (some s) init_own_service_default r).own_service = true ∧
    (factoryInit none b r).own_service = true := by
  simp [from_service, factoryInit, init_own_service_default, from_service_own_service_default]

/-- C1 counterexample: a descriptor containing `kwargs` alongside another
parameter converts to an adapter whose declared schema has the two keys
`query` and `x` — not exactly the one key `query` the claim requires for every
descriptor containing `kwargs`. -/
theorem kwargs_extra_param_schema_counterexample :
    kwargsPairTool.inputs.any (fun p => p.1 == "kwargs") = true ∧
    mcp_to_smolagent_tool (some kwargsPairTool) = .ok (mkAdapter kwargsPairTool) ∧
    schemaKeys (mkAdapter kwargsPairTool).inputs = ["query", "x"] ∧
    ["query", "x"] ≠ ["query"] :=
  ⟨by decide, rfl, by decide, by decide⟩

/-- C1 (amended): for every convertible descriptor containing a parameter named
`kwargs`, the generated dispatch takes the single formal `query` and forwards its
value to the wrapped function under the keyword `kwargs`; the declared schema has
exactly the one key `query` when `kwargs` is the descriptor's sole declared
parameter (other declared parameters also appear in the schema otherwise). -/
theorem kwargs_rename_dispatch (α : Type) (t : MCPTool)
    (hname : ¬ t.name = "") (hfn : t.functionCallable = true)
    (hk : t.inputs.any (fun p => p.1 == "kwargs") = true) :
    mcp_to_smolagent_tool (some t) = .ok (mkAdapter t) ∧
    (mkAdapter t).forwardParams = ["query"] ∧
    (∀ σ : String → α, dispatchCall α (mkAdapter t) σ = [("kwargs", σ "query")]) ∧
    (∀ info, t.inputs = [("kwargs", info)] →
      schemaKeys (mkAdapter t).inputs = ["query"]) := by
  refine ⟨by simp [mcp_to_smolagent_tool, hname, hfn], ?_, ?_, ?_⟩
  · simp [mkAdapter, hk]
  · intro σ
    simp [dispatchCall, mkAdapter, hk]
  · intro info hinp
    simp [mkAdapter, hinp, buildInputs, processParam, renameParam, insertOrUpdate,
      schemaKeys]

/-- C1 witness: the amended behavior evaluated on a descriptor whose sole
parameter is `kwargs`. -/
theorem kwargs_rename_dispatch_witness :
    mcp_to_smolagent_tool (some kwargsOnlyTool) = .ok (mkAdapter kwargsOnlyTool) ∧
    dispatchCall Nat (mkAdapter kwargsOnlyTool) (fun _ => 7) = [("kwargs", 7)] ∧
    schemaKeys (mkAdapter kwargsOnlyTool).inputs = ["query"] := by
  obtain ⟨h1, _, h3, h4⟩ :=
    kwargs_rename_dispatch Nat kwargsOnlyTool (by decide) rfl (by decide)
  exact ⟨h1, h3 (fun _ => 7), h4 (ParamInfo.mk (some TypeDesig.pyDict) none) rfl⟩

/-- C3 counterexample: a description-less parameter named `kwargs` gets the
synthesized description "Parameter: query" — the POST-rename name — not
"Parameter: kwargs" as the claim states. -/
theorem description_rename_counterexample :
    kwargsOnlyTool.inputs = [("kwargs", ParamInfo.mk (some TypeDesig.pyDict) none)] ∧
    mcp_to_smolagent_tool (some kwargsOnlyTool) = .ok (mkAdapter kwargsOnlyTool) ∧
    (mkAdapter kwargsOnlyTool).inputs.map (fun p => p.2.description) = ["Parameter: query"] ∧
    "Parameter: query" ≠ "Parameter: kwargs" :=
  ⟨rfl, rfl, by decide, by decide⟩

/-- C3 (amended): the synthesized default description uses the parameter's
POST-rename name (the loop variable is rebound to `query` before the default is
computed), so a description-less `kwargs` parameter yields `"Parameter: query"`
on the `query` entry; for every parameter not named `kwargs` the renamed name
equals the original. -/
theorem default_description_uses_renamed_name (t : MCPTool)
    (hname : ¬ t.name = "") (hfn : t.functionCallable = true) (info : ParamInfo)
    (hdesc : info.pdesc = none) (hinp : t.inputs = [("kwargs", info)]) :
    mcp_to_smolagent_tool (some t) = .ok (mkAdapter t) ∧
    (mkAdapter t).inputs =
      [("query", SchemaEntry.mk (mapParamType info.ptype) "Parameter: query")] ∧
    (∀ n i, i.pdesc = none →
      (schemaEntryFor (renameParam n) i).description = "Parameter: " ++ renameParam n) := by
  refine ⟨by simp [mcp_to_smolagent_tool, hname, hfn], ?_, ?_⟩
  · simp [mkAdapter, hinp, buildInputs, processParam, renameParam, insertOrUpdate,
      schemaEntryFor, hdesc]
  · intro n i hi
    simp [schemaEntryFor, hi]

/-- C3 witness: the amended description defaulting evaluated on the concrete
sole-`kwargs` descriptor. -/
theorem default_description_uses_renamed_name_witness :
    mcp_to_smolagent_tool (some kwargsOnlyTool) = .ok (mkAdapter kwargsOnlyTool) ∧
    (mkAdapter kwargsOnlyTool).inputs =
      [("query", SchemaEntry.mk "object" "Parameter: query")] ∧
    (schemaEntryFor (renameParam "kwargs") (ParamInfo.mk none none)).description =
      "Parameter: query" := by
  obtain ⟨h1, h2, h3⟩ := default_description_uses_renamed_name kwargsOnlyTool
    (by decide) rfl (ParamInfo.mk (some TypeDesig.pyDict) none) rfl rfl
  exact ⟨h1, h2, h3 "kwargs" (ParamInfo.mk none none) rfl⟩

/-- C2 counterexample: on a non-empty batch where every conversion fails, the
caller does not receive a `ConversionError`: the aggregated `ConversionError`
raised at line 346 sits inside the surrounding `try`, whose blanket
`except Exception` handler re-wraps it, so the raised error is a `ServiceError`
(with the aggregated `ConversionError` as its cause). -/
theorem all_failed_batch_counterexample :
    get_smolagent_tools true (.ok [some badTool]) =
      .error (.serviceError
        ("Error getting SmolAgents tools: "
          ++ "Failed to convert any tools. Errors: Error converting  to SmolAgents Tool: MCPTool must have a name")
        (some (.conversionError
          "Failed to convert any tools. Errors: Error converting  to SmolAgents Tool: MCPTool must have a name"
          none))) ∧
    PyError.matchesConversionError
      (.serviceError
        ("Error getting SmolAgents tools: "
          ++ "Failed to convert any tools. Errors: Error converting  to SmolAgents Tool: MCPTool must have a name")
        (some (.conversionError
          "Failed to convert any tools. Errors: Error converting  to SmolAgents Tool: MCPTool must have a name"
          none))) = false :=
  ⟨rfl, rfl⟩

/-- C2 (amended): on a discovery batch of size N with K unconvertible entries,
the aggregate conversion returns exactly N−K adapters without raising when
0 < K < N; when K = N on a non-empty batch it raises a single aggregated error —
the aggregated `ConversionError` is constructed but re-wrapped by the blanket
handler, so what is raised is a `ServiceError` whose message embeds the
aggregated conversion-failure messages and whose cause is that
`ConversionError`; an empty batch yields an empty sequence without raising. -/
theorem batch_conversion_semantics (tools : List (Option MCPTool)) :
    (0 < tools.countP convertFails → tools.countP convertFails < tools.length →
      Except.map List.length (get_smolagent_tools true (.ok tools)) =
        .ok (tools.length - tools.countP convertFails)) ∧
    (tools ≠ [] → tools.countP convertFails = tools.length →
      get_smolagent_tools true (.ok tools) =
        .error (.serviceError
          ("Error getting SmolAgents tools: "
            ++ ("Failed to convert any tools. Errors: "
              ++ String.intercalate ", " (convertFold tools).2))
          (some (.conversionError
            ("Failed to convert any tools. Errors: "
              ++ String.intercalate ", " (convertFold tools).2) none)))) ∧
    get_smolagent_tools true (.ok []) = .ok [] := by
  have h1 : (convertFold tools).1.length = tools.length - tools.countP convertFails := by
    have h := (convertFold_lengths tools ([], [])).1
    simpa [convertFold, countP_not_convertFails] using h
  have h2 : (convertFold tools).2.length = tools.countP convertFails := by
    have h := (convertFold_lengths tools ([], [])).2
    simpa [convertFold] using h
  refine ⟨?_, ?_, rfl⟩
  · intro hK hKN
    have hpos : 0 < (convertFold tools).1.length := by omega
    have hne : (convertFold tools).1.isEmpty = false := by
      cases hc : (convertFold tools).1 with
      | nil => rw [hc] at hpos; simp at hpos
      | cons a l => rfl
    rw [get_smolagent_tools_ok, hne]
    simp [Except.map, h1]
  · intro hnil hKN
    have hN : 0 < tools.length := by
      cases tools with
      | nil => exact absurd rfl hnil
      | cons a l => simp
    have hz : (convertFold tools).1.length = 0 := by omega
    have hE1 : (convertFold tools).1.isEmpty = true := by
      rw [List.length_eq_zero.mp hz]; rfl
    have hE2 : (convertFold tools).2.isEmpty = false := by
      have : 0 < (convertFold tools).2.length := by omega
      cases hc : (convertFold tools).2 with
      | nil => rw [hc] at this; simp at this
      | cons a l => rfl
    rw [get_smolagent_tools_ok, hE1, hE2]
    simp [wrapUnexpected, PyError.matchesServiceError, PyError.msg]

/-- C2 witness: the amended batch semantics evaluated on concrete batches — a
two-element batch with one failure yields one adapter; a one-element all-failed
batch raises the wrapped aggregate error. -/
theorem batch_conversion_semantics_witness :
    Except.map List.length (get_smolagent_tools true (.ok [some goodTool, some badTool]))
      = .ok 1 ∧
    get_smolagent_tools true (.ok [some badTool]) =
      .error (.serviceError
        ("Error getting SmolAgents tools: "
          ++ ("Failed to convert any tools. Errors: "
            ++ String.intercalate ", " (convertFold [some badTool]).2))
        (some (.conversionError
          ("Failed to convert any tools. Errors: "
            ++ String.intercalate ", " (convertFold [some badTool]).2) none))) := by
  constructor
  · exact (batch_conversion_semantics [some goodTool, some badTool]).1 (by decide) (by decide)
  · exact (batch_conversion_semantics [some badTool]).2.1 (by decide) rfl

/-- C6: for every convertible descriptor with a non-empty parameter mapping (a
Python dict, hence distinct keys) containing no parameter named `kwargs`, the
generated dispatch's formal parameter names equal the declared schema's keys in
the same order, equal the descriptor's original parameter names, and the body
forwards every formal parameter to the wrapped function under that same original
name. -/
theorem non_kwargs_dispatch_matches_schema (t : MCPTool)
    (hname : ¬ t.name = "") (hfn : t.functionCallable = true)
    (hne : ¬ t.inputs = [])
    (hnk : ∀ p ∈ t.inputs, ¬ p.1 = "kwargs")
    (hnd : (t.inputs.map Prod.fst).Nodup) :
    mcp_to_smolagent_tool (some t) = .ok (mkAdapter t) ∧
    (mkAdapter t).forwardParams = schemaKeys (mkAdapter t).inputs ∧
    (mkAdapter t).forwardParams = t.inputs.map Prod.fst ∧
    (mkAdapter t).forwardBody = (t.inputs.map Prod.fst).map (fun n => (n, n)) := by
  have hasK : t.inputs.any (fun p => p.1 == "kwargs") = false := by
    rw [List.any_eq_false]
    intro p hp
    simp [hnk p hp]
  have hren : renamedKeys t.inputs = t.inputs.map Prod.fst :=
    renamedKeys_eq_of_no_kwargs t.inputs hnk
  have hb1 : (buildInputs t.inputs).1 = t.inputs.map Prod.fst := by
    rw [show buildInputs t.inputs = t.inputs.foldl processParam ([], []) from rfl,
      foldl_processParam_fst t.inputs ([], []), List.nil_append, hren]
  have hkeys : schemaKeys (buildInputs t.inputs).2 = t.inputs.map Prod.fst := by
    rw [show buildInputs t.inputs = t.inputs.foldl processParam ([], []) from rfl,
      foldl_processParam_keys_of_nodup t.inputs ([], [])
        (by rw [hren]; exact hnd)
        (fun n _ hmem => (List.not_mem_nil n) hmem)]
    rw [show schemaKeys (([], []) : List String × List (String × SchemaEntry)).2 = [] from rfl,
      List.nil_append, hren]
  have hie : (buildInputs t.inputs).1.isEmpty = false := by
    rw [hb1]
    cases hI : t.inputs with
    | nil => exact absurd hI hne
    | cons a l => rfl
  refine ⟨by simp [mcp_to_smolagent_tool, hname, hfn], ?_, ?_, ?_⟩
  · simp [mkAdapter, hasK, hie, hb1, hkeys, hne]
  · simp [mkAdapter, hasK, hie, hb1, hne]
  · simp [mkAdapter, hasK, hie, hb1, hne, List.map_map]

/-- C6 witness: the dispatch/schema agreement evaluated on a concrete one-parameter
descriptor without `kwargs`. -/
theorem non_kwargs_dispatch_matches_schema_witness :
    mcp_to_smolagent_tool (some goodTool) = .ok (mkAdapter goodTool) ∧
    (mkAdapter goodTool).forwardParams = schemaKeys (mkAdapter goodTool).inputs ∧
    (mkAdapter goodTool).forwardParams = goodTool.inputs.map Prod.fst ∧
    (mkAdapter goodTool).forwardBody = (goodTool.inputs.map Prod.fst).map (fun n => (n, n)) :=
  non_kwargs_dispatch_matches_schema goodTool (by decide) rfl (by decide) (by decide) (by decide)

/-- C10: for every convertible descriptor whose parameter mapping contains both a
key `kwargs` and a key `query`, the renamed `kwargs` entry collides with the
`query` entry: the generated schema has strictly fewer entries than the
descriptor declares parameters, and the schema's `query` entry is the translation
of whichever of the colliding parameters is processed later (dict assignment
silently overwrites the earlier one's type and description). -/
theorem kwargs_query_collision (t : MCPTool)
    (hname : ¬ t.name = "") (hfn : t.functionCallable = true)
    (hk : "kwargs" ∈ t.inputs.map Prod.fst) (hq : "query" ∈ t.inputs.map Prod.fst) :
    mcp_to_smolagent_tool (some t) = .ok (mkAdapter t) ∧
    (mkAdapter t).inputs.length < t.inputs.length ∧
    lookupSchema "query" (mkAdapter t).inputs =
      ((t.inputs.filter (fun p => renameParam p.1 == "query")).getLast?).map
        (fun p => schemaEntryFor (renameParam p.1) p.2) := by
  have hne : ¬ t.inputs = [] := by
    intro h
    rw [h] at hk
    simp at hk
  have hie : (buildInputs t.inputs).1.isEmpty = false := by
    rw [show buildInputs t.inputs = t.inputs.foldl processParam ([], []) from rfl,
      foldl_processParam_fst t.inputs ([], []), List.nil_append]
    cases hI : t.inputs with
    | nil => exact absurd hI hne
    | cons a l => rfl
  have hAdapterInputs : (mkAdapter t).inputs = (buildInputs t.inputs).2 := by
    simp [mkAdapter, hie]
  have hnodupK : (schemaKeys (buildInputs t.inputs).2).Nodup :=
    foldl_processParam_keys_nodup t.inputs ([], []) (by simp)
  have hTF : (schemaKeys (buildInputs t.inputs).2).toFinset
      = (renamedKeys t.inputs).toFinset := by
    rw [show buildInputs t.inputs = t.inputs.foldl processParam ([], []) from rfl,
      foldl_processParam_keys_toFinset t.inputs ([], [])]
    simp
  have hdup : ¬ (renamedKeys t.inputs).Nodup := by
    intro hnod
    obtain ⟨l1, l2, hsplit⟩ := List.append_of_mem hk
    rw [renamedKeys_eq_map, hsplit, List.map_append, List.map_cons,
      show renameParam "kwargs" = "query" from rfl, List.nodup_append] at hnod
    obtain ⟨-, hnod2, hdisj⟩ := hnod
    rw [hsplit] at hq
    rcases List.mem_append.mp hq with hq1 | hq2
    · have hmem : "query" ∈ l1.map renameParam := by
        have hmm := List.mem_map_of_mem renameParam hq1
        rwa [show renameParam "query" = "query" from rfl] at hmm
      exact hdisj hmem (List.mem_cons_self _ _)
    · rcases List.mem_cons.mp hq2 with heq | hq3
      · exact absurd heq (by decide)
      · have hmem : "query" ∈ l2.map renameParam := by
          have hmm := List.mem_map_of_mem renameParam hq3
          rwa [show renameParam "query" = "query" from rfl] at hmm
        exact (List.nodup_cons.mp hnod2).1 hmem
  have hlen : (mkAdapter t).inputs.length < t.inputs.length := by
    have e1 : (mkAdapter t).inputs.length = (schemaKeys (buildInputs t.inputs).2).length := by
      rw [hAdapterInputs]
      exact (List.length_map _ _).symm
    have e2 : (schemaKeys (buildInputs t.inputs).2).length
        = (schemaKeys (buildInputs t.inputs).2).toFinset.card :=
      (List.toFinset_card_of_nodup hnodupK).symm
    have e3 : (renamedKeys t.inputs).toFinset.card = (renamedKeys t.inputs).dedup.length :=
      List.card_toFinset _
    have e4 : (renamedKeys t.inputs).dedup.length < (renamedKeys t.inputs).length :=
      dedup_length_lt_of_not_nodup hdup
    have e5 : (renamedKeys t.inputs).length = t.inputs.length := List.length_map _ _
    rw [e1, e2, hTF, e3]
    omega
  refine ⟨by simp [mcp_to_smolagent_tool, hname, hfn], hlen, ?_⟩
  rw [hAdapterInputs,
    show buildInputs t.inputs = t.inputs.foldl processParam ([], []) from rfl,
    foldl_processParam_lookup "query" t.inputs ([], [])]
  cases hfr : (t.inputs.filter (fun p => renameParam p.1 == "query")).getLast? with
  | none => rfl
  | some p => rfl

/-- C10 witness: the collision evaluated on a concrete descriptor declaring
`kwargs`, `query` and a third parameter — the schema has 2 < 3 entries and the
`query` entry comes from the later-processed `query` parameter. -/
theorem kwargs_query_collision_witness :
    mcp_to_smolagent_tool (some collideTool) = .ok (mkAdapter collideTool) ∧
    (mkAdapter collideTool).inputs.length < collideTool.inputs.length ∧
    lookupSchema "query" (mkAdapter collideTool).inputs =
      ((collideTool.inputs.filter (fun p => renameParam p.1 == "query")).getLast?).map
        (fun p => schemaEntryFor (renameParam p.1) p.2) :=
  kwargs_query_collision collideTool (by decide) rfl (by decide) (by decide)

end McpAgentTools
